import Mathlib

/-!
Verification of the session-history component of the RAG-Chatbot repository
(`src/chat_history.py` with configuration defaults from `src/config.py`).

The store is a directory of `<session_id>.json` files.  We embed the directory
as an association list from file-name stem to file content.  A file content is
either `malformed` (the file exists but `json.load` fails with
`JSONDecodeError`/`IOError`) or `record r` where `r` is the parsed JSON object;
the object's fields are `Option`-valued because a valid JSON object need not
carry every session field.  Python exceptions that propagate out of a store
operation are modelled with `Except String`; clock reads (`datetime.now()`)
are passed in as explicit parameters, one per `now()` call site in the source.
-/

/-- A chat message as `chat_history.py` sees it: a JSON dict from which only
the `type` and `content` keys are ever read (via `dict.get`, hence
`Option`-valued); `timestamp` and `author` are carried along untouched. -/
structure Message where
  type : Option String
  content : Option String
  timestamp : Option String
  author : Option String
deriving DecidableEq, Repr

/-- A parsed session JSON object.  Every field is optional: `json.load`
returns whatever object the file holds, and the reading code accesses fields
individually (`[...]` raising `KeyError`, or `.get` with a default). -/
structure JsonRecord where
  session_id : Option String
  title : Option String
  timestamp : Option String
  messages : Option (List Message)
  message_count : Option Nat
deriving DecidableEq, Repr

/-- Content of one stored `.json` file: either unparseable (malformed JSON or
an I/O error while reading — both are caught by the same `except` clauses in
the source) or a parsed JSON object. -/
inductive FileContent where
  | malformed : FileContent
  | record : JsonRecord → FileContent
deriving DecidableEq, Repr

/-- The storage directory: file-name stem (the `session_id` part of
`<session_id>.json`) paired with the file's content, in directory (glob)
order.  A real directory has unique names; theorems that need this carry a
`Nodup` hypothesis on the keys. -/
abbrev Store := List (String × FileContent)

/-- Look up the content of file `<k>.json`, mirroring `file_path.exists()`
followed by a read. -/
def lookupStore : Store → String → Option FileContent
  | [], _ => none
  | (k', c) :: rest, k => if k' = k then some c else lookupStore rest k

/-- Write file `<k>.json` with content `c`: overwrite the existing entry if
present, otherwise the directory gains a new entry (placed at the end). -/
def storeSet : Store → String → FileContent → Store
  | [], k, c => [(k, c)]
  | (k', c') :: rest, k, c =>
    if k' = k then (k, c) :: rest else (k', c') :: storeSet rest k c

/-- Remove file `<k>.json` (first occurrence; the only one in a real
directory), mirroring `file_path.unlink()`. -/
def storeErase : Store → String → Store
  | [], _ => []
  | (k', c') :: rest, k => if k' = k then rest else (k', c') :: storeErase rest k

/-- A local clock reading at the precision `_generate_title`'s fallback uses
(`datetime.now().strftime("%Y-%m-%d %H:%M")`). -/
structure DateTime where
  year : Nat
  month : Nat
  day : Nat
  hour : Nat
  minute : Nat
deriving DecidableEq, Repr

/-- Zero-pad to two digits, as `strftime` `%m`/`%d`/`%H`/`%M` do. -/
def pad2 (n : Nat) : String :=
  if n < 10 then "0" ++ toString n else toString n

/-- Zero-pad to four digits, as `strftime` `%Y` does. -/
def pad4 (n : Nat) : String :=
  if n < 10 then "000" ++ toString n
  else if n < 100 then "00" ++ toString n
  else if n < 1000 then "0" ++ toString n
  else toString n

/-- The `"%Y-%m-%d %H:%M"` rendering used by `_generate_title`'s fallback. -/
def strftimeMinute (t : DateTime) : String :=
  pad4 t.year ++ "-" ++ pad2 t.month ++ "-" ++ pad2 t.day ++ " "
    ++ pad2 t.hour ++ ":" ++ pad2 t.minute

/-- Python `str.isspace` on the ASCII range, which is what `str.strip()`
removes from the inputs this component handles (Unicode-only whitespace code
points beyond ASCII are not modelled). -/
def pyIsSpace (c : Char) : Bool :=
  c = ' ' || c = '\t' || c = '\n' || c = '\r' || c = Char.ofNat 11 || c = Char.ofNat 12

/-- Python `str.strip()`: drop leading and trailing whitespace. -/
def pyStrip (s : String) : String :=
  String.mk (((s.data.dropWhile pyIsSpace).reverse.dropWhile pyIsSpace).reverse)

/-- The guard `message.get("type") == "user_message" and message.get("content")`
from `_generate_title`: the message's `type` is `"user_message"` and its
`content` is truthy (present and non-empty). -/
def isContentfulUser (m : Message) : Bool :=
  m.type == some "user_message" && m.content.getD "" != ""

/-- Embeds `ChatHistoryManager._generate_title`: scan `messages` for the first
entry whose `type` is `"user_message"` and whose `content` is a truthy
(non-empty) string; return its stripped content, truncated to 47 characters
plus `"..."` when the stripped content exceeds 50 characters; with no such
message fall back to `"Chat "` followed by the minute-precision local time. -/
def generate_title : List Message → DateTime → String
  | [], now => "Chat " ++ strftimeMinute now
  | m :: rest, now =>
    if isContentfulUser m then
      let content := pyStrip (m.content.getD "")
      if content.length > 50 then content.take 47 ++ "..." else content
    else generate_title rest now

/-- The `message_count` computed at save time:
`len([m for m in messages if m.get("type") == "user_message"])`. -/
def countUserMessages (messages : List Message) : Nat :=
  (messages.filter (fun m => m.type = some "user_message")).length

/-- The title actually stored by `save_chat_session`: the caller's `title`
unless it is falsy (`None` or the empty string), in which case
`_generate_title` supplies it. -/
def effectiveTitle (title : Option String) (messages : List Message)
    (nowTitle : DateTime) : String :=
  match title with
  | none => generate_title messages nowTitle
  | some t => if t = "" then generate_title messages nowTitle else t

/-- The `session_data` dict that `save_chat_session` serialises. -/
def newRecord (session_id : String) (messages : List Message)
    (title : Option String) (nowIso : String) (nowTitle : DateTime) : JsonRecord :=
  { session_id := some session_id
    title := some (effectiveTitle title messages nowTitle)
    timestamp := some nowIso
    messages := some messages
    message_count := some (countUserMessages messages) }

/-- One sidebar summary entry as built by `get_chat_history`. -/
structure Summary where
  session_id : String
  title : String
  timestamp : String
  message_count : Nat
deriving DecidableEq, Repr

/-- Embeds the loop body of `get_chat_history`: walk the directory in glob
order; skip files whose parse fails; for a parsed object read `session_id`,
`title` and `timestamp` by indexing (an absent key raises `KeyError`, which
propagates and aborts the whole listing) and `message_count` via `.get` with
default `0`. -/
def collectSummaries : Store → Except String (List Summary)
  | [] => .ok []
  | (_, .malformed) :: rest => collectSummaries rest
  | (_, .record r) :: rest =>
    match r.session_id with
    | none => .error "KeyError: session_id"
    | some sid =>
      match r.title with
      | none => .error "KeyError: title"
      | some t =>
        match r.timestamp with
        | none => .error "KeyError: timestamp"
        | some ts =>
          match collectSummaries rest with
          | .error e => .error e
          | .ok l => .ok (⟨sid, t, ts, r.message_count.getD 0⟩ :: l)

/-- Python `<=` on strings, code-point-lexicographic, on the underlying
character lists. -/
def listLE : List Char → List Char → Bool
  | [], _ => true
  | _ :: _, [] => false
  | a :: as, b :: bs =>
    if a.toNat < b.toNat then true
    else if b.toNat < a.toNat then false
    else listLE as bs

/-- Python `<=` on strings: code-point-lexicographic comparison. -/
def strLE (a b : String) : Bool :=
  listLE a.data b.data

/-- The comparison `sessions.sort(key=lambda x: x["timestamp"], reverse=True)`
performs: a stable sort that is descending in the timestamp string. -/
def descTimestamp (a b : Summary) : Bool :=
  strLE b.timestamp a.timestamp

/-- Embeds `ChatHistoryManager.get_chat_history`: collect one summary per
parseable file, then sort newest-first by timestamp string. -/
def get_chat_history (s : Store) : Except String (List Summary) :=
  match collectSummaries s with
  | .error e => .error e
  | .ok sessions => .ok (sessions.mergeSort descTimestamp)

/-- Embeds `ChatHistoryManager.load_chat_session`: `None` when the file does
not exist or fails to parse, otherwise the parsed object. -/
def load_chat_session (s : Store) (session_id : String) : Option JsonRecord :=
  match lookupStore s session_id with
  | none => none
  | some .malformed => none
  | some (.record r) => some r

/-- Embeds `ChatHistoryManager.delete_chat_session`.  `unlinkOk` is the
outcome of the `unlink` system call (`false` models the `OSError` branch:
permissions, concurrent deletion).  Returns the directory after the call and
the boolean result. -/
def delete_chat_session (s : Store) (session_id : String) (unlinkOk : Bool) :
    Store × Bool :=
  if (lookupStore s session_id).isSome then
    if unlinkOk then (storeErase s session_id, true) else (s, false)
  else (s, false)

/-- Embeds `ChatHistoryManager._cleanup_old_sessions`: list all sessions
newest-first; when the count exceeds `maxHistory`, delete every session beyond
that position, keyed by the summary's `session_id` field.  A `KeyError`
escaping `get_chat_history` propagates.  The source ignores the boolean result
of each delete; unlink failures during eviction are not modelled (`unlinkOk`
is `true`). -/
def cleanup_old_sessions (maxHistory : Nat) (s : Store) : Except String Store :=
  match get_chat_history s with
  | .error e => .error e
  | .ok sessions =>
    if sessions.length > maxHistory then
      .ok ((sessions.drop maxHistory).foldl
        (fun st sum => (delete_chat_session st sum.session_id true).1) s)
    else .ok s

/-- Embeds `ChatHistoryManager.save_chat_session`: derive the title when the
given one is falsy, write the full record to `<session_id>.json` (overwriting
any prior record), then run retention eviction.  `nowIso` is the
`datetime.now().isoformat()` reading used for the record's timestamp;
`nowTitle` the separate `now()` reading a title fallback would use. -/
def save_chat_session (maxHistory : Nat) (s : Store) (session_id : String)
    (messages : List Message) (title : Option String) (nowIso : String)
    (nowTitle : DateTime) : Except String Store :=
  cleanup_old_sessions maxHistory
    (storeSet s session_id (.record (newRecord session_id messages title nowIso nowTitle)))

/-- `get_max_chat_history()` with `MAX_CHAT_HISTORY` unset
(`src/config.py`). -/
def DEFAULT_MAX_CHAT_HISTORY : Nat := 50

/-- The filesystem as seen one level up: whether the storage root directory
exists, and its files. -/
structure FS where
  rootExists : Bool
  files : Store
deriving DecidableEq, Repr

/-- Embeds `ChatHistoryManager.__init__`'s
`self.storage_dir.mkdir(exist_ok=True)`: create the storage root if absent. -/
def managerInit (fs : FS) : FS :=
  { fs with rootExists := true }

/-- `save_chat_session` at the filesystem level: `open(file_path, "w")` raises
`FileNotFoundError` when the storage root directory is missing — `save` itself
never creates the root (only `__init__` does). -/
def save_chat_session_fs (maxHistory : Nat) (fs : FS) (session_id : String)
    (messages : List Message) (title : Option String) (nowIso : String)
    (nowTitle : DateTime) : Except String FS :=
  if fs.rootExists then
    match save_chat_session maxHistory fs.files session_id messages title nowIso nowTitle with
    | .error e => .error e
    | .ok s' => .ok { fs with files := s' }
  else .error "FileNotFoundError"

/-- The summary `get_chat_history` would build for one file, as a partial
function: `none` for a malformed file or a parsed object lacking one of the
three indexed fields. -/
def entrySummary (p : String × FileContent) : Option Summary :=
  match p.2 with
  | .malformed => none
  | .record r =>
    match r.session_id, r.title, r.timestamp with
    | some sid, some t, some ts => some ⟨sid, t, ts, r.message_count.getD 0⟩
    | _, _, _ => none

/-- All summaries of a directory, in glob order, skipping files that yield
none. -/
def savedSummaries (s : Store) : List Summary :=
  s.filterMap entrySummary

/-- A file content that `get_chat_history`'s loop handles without raising:
either unparseable (skipped) or a parsed object carrying the three indexed
fields. -/
def listable (c : FileContent) : Bool :=
  match c with
  | .malformed => true
  | .record r => r.session_id.isSome && r.title.isSome && r.timestamp.isSome

/-- A well-formed stored session: a parsed record whose `session_id` field
matches the file name stem and which carries title and timestamp — the shape
`save_chat_session` always writes. -/
def wfEntry (p : String × FileContent) : Bool :=
  match p.2 with
  | .malformed => false
  | .record r => decide (r.session_id = some p.1) && r.title.isSome && r.timestamp.isSome

/-- Modelled from the spec's words for comparison with `_generate_title`: the
content of the first message that is a `user_message` with truthy content,
found independently of the recursion in `generate_title`. -/
def firstUserContent (messages : List Message) : Option String :=
  (messages.find? isContentfulUser).bind Message.content

theorem listLE_refl (l : List Char) : listLE l l = true := by
  induction l with
  | nil => rfl
  | cons a as ih => simp [listLE, ih]

theorem listLE_total (a b : List Char) : (listLE a b || listLE b a) = true := by
  induction a generalizing b with
  | nil => simp [listLE]
  | cons x xs ih =>
    cases b with
    | nil => simp [listLE]
    | cons y ys =>
      by_cases h1 : x.toNat < y.toNat
      · simp [listLE, h1]
      · by_cases h2 : y.toNat < x.toNat
        · simp [listLE, h1, h2]
        · simpa [listLE, h1, h2] using ih ys

theorem listLE_trans {a b c : List Char} (h1 : listLE a b = true)
    (h2 : listLE b c = true) : listLE a c = true := by
  induction a generalizing b c with
  | nil => simp [listLE]
  | cons x xs ih =>
    cases b with
    | nil => simp [listLE] at h1
    | cons y ys =>
      cases c with
      | nil => simp [listLE] at h2
      | cons z zs =>
        simp only [listLE] at h1 h2 ⊢
        by_cases hxy : x.toNat < y.toNat
        · by_cases hyz : y.toNat < z.toNat
          · have hxz : x.toNat < z.toNat := Nat.lt_trans hxy hyz
            simp [hxz]
          · simp only [if_neg hyz] at h2
            by_cases hzy : z.toNat < y.toNat
            · simp [if_pos hzy] at h2
            · have hxz : x.toNat < z.toNat := by omega
              simp [hxz]
        · simp only [if_neg hxy] at h1
          by_cases hyx : y.toNat < x.toNat
          · simp [if_pos hyx] at h1
          · simp only [if_neg hyx] at h1
            by_cases hyz : y.toNat < z.toNat
            · have hxz : x.toNat < z.toNat := by omega
              simp [hxz]
            · simp only [if_neg hyz] at h2
              by_cases hzy : z.toNat < y.toNat
              · simp [if_pos hzy] at h2
              · simp only [if_neg hzy] at h2
                have hxz : ¬ x.toNat < z.toNat := by omega
                have hzx : ¬ z.toNat < x.toNat := by omega
                simp only [if_neg hxz, if_neg hzx]
                exact ih h1 h2

theorem descTimestamp_trans (a b c : Summary) (h1 : descTimestamp a b = true)
    (h2 : descTimestamp b c = true) : descTimestamp a c = true :=
  listLE_trans h2 h1

theorem descTimestamp_total (a b : Summary) :
    (descTimestamp a b || descTimestamp b a) = true := by
  simpa [descTimestamp, strLE, Bool.or_comm] using
    listLE_total a.timestamp.data b.timestamp.data

theorem lookupStore_eq_none_iff (s : Store) (k : String) :
    lookupStore s k = none ↔ k ∉ s.map Prod.fst := by
  induction s with
  | nil => simp [lookupStore]
  | cons p rest ih =>
    obtain ⟨k', c'⟩ := p
    by_cases h : k' = k
    · subst h
      simp [lookupStore]
    · simp [lookupStore, h, ih, Ne.symm h]

theorem lookupStore_isSome_iff (s : Store) (k : String) :
    (lookupStore s k).isSome = true ↔ k ∈ s.map Prod.fst := by
  rcases hv : lookupStore s k with _ | v
  · simpa using (lookupStore_eq_none_iff s k).mp hv
  · simp only [Option.isSome_some, true_iff]
    by_contra hmem
    rw [← lookupStore_eq_none_iff s k] at hmem
    rw [hv] at hmem
    exact Option.some_ne_none v hmem

theorem lookupStore_storeSet_self (s : Store) (k : String) (c : FileContent) :
    lookupStore (storeSet s k c) k = some c := by
  induction s with
  | nil => simp [storeSet, lookupStore]
  | cons p rest ih =>
    obtain ⟨k', c'⟩ := p
    by_cases h : k' = k <;> simp [storeSet, lookupStore, h, ih]

theorem lookupStore_storeSet_ne (s : Store) (k : String) (c : FileContent)
    (k'' : String) (h : k ≠ k'') :
    lookupStore (storeSet s k c) k'' = lookupStore s k'' := by
  induction s with
  | nil => simp [storeSet, lookupStore, h]
  | cons p rest ih =>
    obtain ⟨k', c'⟩ := p
    by_cases hk : k' = k
    · subst hk
      simp [storeSet, lookupStore, h, ih]
    · by_cases hk'' : k' = k''
      · subst hk''
        simp [storeSet, lookupStore, hk]
      · simp [storeSet, lookupStore, hk, hk'', ih]

theorem storeSet_of_not_mem (s : Store) (k : String) (c : FileContent)
    (h : k ∉ s.map Prod.fst) : storeSet s k c = s ++ [(k, c)] := by
  induction s with
  | nil => simp [storeSet]
  | cons p rest ih =>
    obtain ⟨k', c'⟩ := p
    simp only [List.map_cons, List.mem_cons, not_or] at h
    simp [storeSet, Ne.symm h.1, ih h.2]

theorem map_fst_storeSet_of_mem (s : Store) (k : String) (c : FileContent)
    (h : k ∈ s.map Prod.fst) :
    (storeSet s k c).map Prod.fst = s.map Prod.fst := by
  induction s with
  | nil => simp at h
  | cons p rest ih =>
    obtain ⟨k', c'⟩ := p
    by_cases hk : k' = k
    · simp [storeSet, hk]
    · simp only [List.map_cons, List.mem_cons] at h
      rcases h with h | h
      · exact ((Ne.symm hk) h).elim
      · simp [storeSet, hk, ih h]

theorem length_storeSet_of_mem (s : Store) (k : String) (c : FileContent)
    (h : k ∈ s.map Prod.fst) : (storeSet s k c).length = s.length := by
  induction s with
  | nil => simp at h
  | cons p rest ih =>
    obtain ⟨k', c'⟩ := p
    by_cases hk : k' = k
    · simp [storeSet, hk]
    · simp only [List.map_cons, List.mem_cons] at h
      rcases h with h | h
      · exact (hk h.symm).elim
      · simp [storeSet, hk, ih h]

theorem length_storeSet_le (s : Store) (k : String) (c : FileContent) :
    (storeSet s k c).length ≤ s.length + 1 := by
  induction s with
  | nil => simp [storeSet]
  | cons p rest ih =>
    obtain ⟨k', c'⟩ := p
    by_cases hk : k' = k
    · simp [storeSet, hk]
    · simp only [storeSet, if_neg hk, List.length_cons]
      omega

theorem lookupStore_storeErase_ne (s : Store) (k k'' : String) (h : k ≠ k'') :
    lookupStore (storeErase s k) k'' = lookupStore s k'' := by
  induction s with
  | nil => simp [storeErase]
  | cons p rest ih =>
    obtain ⟨k', c'⟩ := p
    by_cases hk : k' = k
    · subst hk
      simp [storeErase, lookupStore, h]
    · by_cases hk'' : k' = k''
      · subst hk''
        simp [storeErase, lookupStore, hk]
      · simp [storeErase, lookupStore, hk, hk'', ih]

theorem lookupStore_storeErase_self (s : Store) (k : String)
    (h : (s.map Prod.fst).Nodup) : lookupStore (storeErase s k) k = none := by
  induction s with
  | nil => simp [storeErase, lookupStore]
  | cons p rest ih =>
    obtain ⟨k', c'⟩ := p
    simp only [List.map_cons, List.nodup_cons] at h
    by_cases hk : k' = k
    · subst hk
      rw [storeErase, if_pos rfl, lookupStore_eq_none_iff]
      exact h.1
    · simp [storeErase, lookupStore, hk, ih h.2]

theorem length_storeErase_of_mem (s : Store) (k : String)
    (h : k ∈ s.map Prod.fst) : (storeErase s k).length + 1 = s.length := by
  induction s with
  | nil => simp at h
  | cons p rest ih =>
    obtain ⟨k', c'⟩ := p
    by_cases hk : k' = k
    · simp [storeErase, hk]
    · simp only [List.map_cons, List.mem_cons] at h
      rcases h with h | h
      · exact (hk h.symm).elim
      · simp [storeErase, hk, ih h]

theorem listable_of_wfEntry {p : String × FileContent} (h : wfEntry p = true) :
    listable p.2 = true := by
  obtain ⟨k, c⟩ := p
  cases c with
  | malformed => simp [wfEntry] at h
  | record r =>
    simp only [wfEntry, Bool.and_eq_true, decide_eq_true_eq] at h
    simp [listable, h.1.1, h.1.2, h.2]

theorem entrySummary_of_wfEntry {p : String × FileContent} (h : wfEntry p = true) :
    ∃ q : Summary, entrySummary p = some q ∧ q.session_id = p.1 := by
  obtain ⟨k, c⟩ := p
  cases c with
  | malformed => simp [wfEntry] at h
  | record r =>
    simp only [wfEntry, Bool.and_eq_true, decide_eq_true_eq] at h
    obtain ⟨⟨hsid, ht⟩, hts⟩ := h
    obtain ⟨t, ht⟩ := Option.isSome_iff_exists.mp ht
    obtain ⟨ts, hts⟩ := Option.isSome_iff_exists.mp hts
    exact ⟨⟨k, t, ts, r.message_count.getD 0⟩, by simp [entrySummary, hsid, ht, hts], rfl⟩

theorem entrySummary_isSome_of_wfEntry {p : String × FileContent}
    (h : wfEntry p = true) : (entrySummary p).isSome = true := by
  obtain ⟨q, hq, -⟩ := entrySummary_of_wfEntry h
  simp [hq]

theorem collectSummaries_eq_ok (s : Store) (h : ∀ p ∈ s, listable p.2 = true) :
    collectSummaries s = .ok (savedSummaries s) := by
  induction s with
  | nil => rfl
  | cons p rest ih =>
    obtain ⟨k, c⟩ := p
    have hc : listable c = true := h (k, c) (List.mem_cons_self _ _)
    have hrest := ih (fun q hq => h q (List.mem_cons_of_mem _ hq))
    cases c with
    | malformed =>
      simpa [collectSummaries, savedSummaries, entrySummary] using hrest
    | record r =>
      simp only [listable, Bool.and_eq_true] at hc
      obtain ⟨⟨hsid, ht⟩, hts⟩ := hc
      obtain ⟨sid, hsid⟩ := Option.isSome_iff_exists.mp hsid
      obtain ⟨t, ht⟩ := Option.isSome_iff_exists.mp ht
      obtain ⟨ts, hts⟩ := Option.isSome_iff_exists.mp hts
      simp [collectSummaries, savedSummaries, entrySummary, hsid, ht, hts, hrest]

theorem get_chat_history_eq_ok (s : Store) (h : ∀ p ∈ s, listable p.2 = true) :
    get_chat_history s = .ok ((savedSummaries s).mergeSort descTimestamp) := by
  simp [get_chat_history, collectSummaries_eq_ok s h]

theorem length_filterMap_of_isSome {α β : Type} (f : α → Option β) (l : List α)
    (h : ∀ x ∈ l, (f x).isSome = true) : (l.filterMap f).length = l.length := by
  induction l with
  | nil => rfl
  | cons x xs ih =>
    obtain ⟨y, hy⟩ := Option.isSome_iff_exists.mp (h x (List.mem_cons_self _ _))
    simp [List.filterMap_cons, hy, ih (fun z hz => h z (List.mem_cons_of_mem _ hz))]

theorem cleanup_noop (maxHistory : Nat) (s : Store)
    (hl : ∀ p ∈ s, listable p.2 = true) (hlen : s.length ≤ maxHistory) :
    cleanup_old_sessions maxHistory s = .ok s := by
  have hle : (savedSummaries s).length ≤ maxHistory :=
    le_trans (List.length_filterMap_le _ _) hlen
  unfold cleanup_old_sessions
  rw [get_chat_history_eq_ok s hl]
  simp [Nat.not_lt.mpr hle]

theorem mem_storeSet {s : Store} {k : String} {c : FileContent}
    {p : String × FileContent} (h : p ∈ storeSet s k c) : p ∈ s ∨ p = (k, c) := by
  induction s with
  | nil => simpa [storeSet] using h
  | cons q rest ih =>
    obtain ⟨k', c'⟩ := q
    by_cases hk : k' = k
    · rw [storeSet, if_pos hk] at h
      rcases List.mem_cons.mp h with h | h
      · right; exact h
      · left; exact List.mem_cons_of_mem _ h
    · rw [storeSet, if_neg hk] at h
      rcases List.mem_cons.mp h with h | h
      · left; simp [h]
      · rcases ih h with h | h
        · left; exact List.mem_cons_of_mem _ h
        · right; exact h

theorem nodup_map_fst_storeSet (s : Store) (k : String) (c : FileContent)
    (h : (s.map Prod.fst).Nodup) : ((storeSet s k c).map Prod.fst).Nodup := by
  by_cases hm : k ∈ s.map Prod.fst
  · rw [map_fst_storeSet_of_mem s k c hm]; exact h
  · rw [storeSet_of_not_mem s k c hm]
    simp only [List.map_append, List.map_cons, List.map_nil]
    exact List.Nodup.append h (List.nodup_singleton k) (by simpa using hm)

/-- C5: for every session id, `load_chat_session` returns the not-found result
(`none`) exactly when no file exists for that id or when the file exists but
its content fails to parse; a malformed file is never reported as an error
distinct from absence. -/
theorem load_not_found_iff (s : Store) (session_id : String) :
    load_chat_session s session_id = none ↔
      lookupStore s session_id = none ∨
        lookupStore s session_id = some FileContent.malformed := by
  unfold load_chat_session
  rcases lookupStore s session_id with _ | c
  · simp
  · cases c <;> simp

/-- C4: `delete_chat_session` returns true iff a stored record existed and the
OS-level removal succeeded; an existence-confirmed removal failure and a
missing record both yield false (never an exception), and after a true result
the session no longer loads. -/
theorem delete_chat_session_spec (s : Store) (session_id : String) (unlinkOk : Bool)
    (hkeys : (s.map Prod.fst).Nodup) :
    ((delete_chat_session s session_id unlinkOk).2 = true ↔
      (lookupStore s session_id).isSome = true ∧ unlinkOk = true) ∧
    ((delete_chat_session s session_id unlinkOk).2 = true →
      load_chat_session (delete_chat_session s session_id unlinkOk).1 session_id = none) := by
  unfold delete_chat_session
  by_cases hex : (lookupStore s session_id).isSome = true
  · cases unlinkOk with
    | false => simp [hex]
    | true =>
      simp [hex, load_chat_session, lookupStore_storeErase_self s session_id hkeys]
  · simp [hex]

/-- Witness for C4 at a concrete store: one existing session, successful
unlink. -/
theorem delete_chat_session_spec_witness :
    ((([("a", FileContent.malformed)] : Store).map Prod.fst).Nodup) ∧
    (((delete_chat_session [("a", FileContent.malformed)] "a" true).2 = true ↔
      (lookupStore [("a", FileContent.malformed)] "a").isSome = true ∧ true = true) ∧
    ((delete_chat_session [("a", FileContent.malformed)] "a" true).2 = true →
      load_chat_session (delete_chat_session [("a", FileContent.malformed)] "a" true).1 "a" = none)) :=
  ⟨by decide, delete_chat_session_spec [("a", FileContent.malformed)] "a" true (by decide)⟩

/-- C9 counterexample: saving with `title = ""` and a first user message whose
content is a single space stores the empty string as the title — the stored
title is the derived one, but the derived one is itself the empty string
(stripping reduces the content to `""`), refuting "never the empty string". -/
theorem save_empty_title_counterexample :
    save_chat_session 50 [] "s1" [⟨some "user_message", some " ", none, none⟩]
        (some "") "2025-01-01T00:00:00" ⟨2025, 1, 1, 0, 0⟩ =
      .ok [("s1", FileContent.record ⟨some "s1", some "", some "2025-01-01T00:00:00",
        some [⟨some "user_message", some " ", none, none⟩], some 1⟩)] := by
  simp [save_chat_session, cleanup_old_sessions, get_chat_history, collectSummaries,
    storeSet, newRecord, effectiveTitle, generate_title, isContentfulUser, pyStrip,
    pyIsSpace, countUserMessages]

/-- C9 amended: an empty-string title is treated exactly as an absent title —
the save is indistinguishable from one with no title supplied, so the stored
title is the derived one (which may itself be empty when the first contentful
user message is whitespace-only). -/
theorem save_empty_title_amended (maxHistory : Nat) (s : Store) (session_id : String)
    (messages : List Message) (nowIso : String) (nowTitle : DateTime) :
    save_chat_session maxHistory s session_id messages (some "") nowIso nowTitle =
      save_chat_session maxHistory s session_id messages none nowIso nowTitle := rfl

/-- C10: a stored file whose content is valid JSON but lacks `session_id` (or
`title`) makes `get_chat_history` raise an uncaught `KeyError` instead of
skipping the file, while a record merely lacking `message_count` is listed
with `message_count` 0. -/
theorem get_chat_history_keyerror :
    get_chat_history [("f", FileContent.record ⟨none, some "t", some "2025", none, none⟩)] =
      .error "KeyError: session_id" ∧
    get_chat_history [("g", FileContent.record ⟨some "g", none, some "2025", none, none⟩)] =
      .error "KeyError: title" ∧
    get_chat_history [("h", FileContent.record ⟨some "h", some "t", some "2025", some [], none⟩)] =
      .ok [⟨"h", "t", "2025", 0⟩] := by
  refine ⟨rfl, rfl, ?_⟩
  simp [get_chat_history, collectSummaries]

/-- C7 counterexample: a save with the storage root missing surfaces an
uncaught error and creates nothing — `save_chat_session` itself never creates
the storage root. -/
theorem save_missing_root_counterexample :
    save_chat_session_fs 50 ⟨false, []⟩ "s1" [] none "2025-01-01T00:00:00"
        ⟨2025, 1, 1, 0, 0⟩ = .error "FileNotFoundError" := rfl

/-- C7 amended: the storage root is created (idempotently) by the manager's
constructor, not by `save_chat_session`; a save while the root is missing
fails with an uncaught `FileNotFoundError` rather than healing it. -/
theorem storage_root_creation_amended (maxHistory : Nat) (fs : FS)
    (session_id : String) (messages : List Message) (title : Option String)
    (nowIso : String) (nowTitle : DateTime) :
    (managerInit fs).rootExists = true ∧
    managerInit (managerInit fs) = managerInit fs ∧
    (fs.rootExists = false →
      save_chat_session_fs maxHistory fs session_id messages title nowIso nowTitle =
        .error "FileNotFoundError") := by
  refine ⟨rfl, rfl, fun h => ?_⟩
  simp [save_chat_session_fs, h]

/-- Witness for C7's amended statement at a concrete filesystem with the root
missing. -/
theorem storage_root_creation_amended_witness :
    save_chat_session_fs 50 ⟨false, [("a", FileContent.malformed)]⟩ "s1" [] none
        "2025-01-01T00:00:00" ⟨2025, 1, 1, 0, 0⟩ = .error "FileNotFoundError" :=
  (storage_root_creation_amended 50 ⟨false, [("a", FileContent.malformed)]⟩ "s1" [] none
    "2025-01-01T00:00:00" ⟨2025, 1, 1, 0, 0⟩).2.2 rfl

/-- C3 counterexample: a first user message whose content carries surrounding
whitespace yields a stripped title, not the content itself (the claim's
"full content otherwise" fails). -/
theorem generate_title_strip_counterexample :
    generate_title [⟨some "user_message", some "  hi  ", none, none⟩]
        ⟨2025, 1, 1, 0, 0⟩ = "hi" ∧ ("hi" : String) ≠ "  hi  " :=
  ⟨rfl, by decide⟩

/-- C3 amended: the derived title is the stripped content of the first
`user_message` carrying truthy (non-empty) content — truncated to its first 47
characters plus `"..."` when the stripped content exceeds 50 characters — and,
when no such message exists, the fallback `"Chat YYYY-MM-DD HH:MM"` at local
minute precision. -/
theorem generate_title_amended (messages : List Message) (now : DateTime) :
    (∀ c, firstUserContent messages = some c →
      generate_title messages now =
        (if (pyStrip c).length > 50 then (pyStrip c).take 47 ++ "..." else pyStrip c)) ∧
    (firstUserContent messages = none →
      generate_title messages now = "Chat " ++ strftimeMinute now) := by
  induction messages with
  | nil => simp [firstUserContent, generate_title]
  | cons m rest ih =>
    cases hm : isContentfulUser m with
    | false =>
      have hm' : ¬ (isContentfulUser m = true) := by simp [hm]
      have hfu : firstUserContent (m :: rest) = firstUserContent rest := by
        simp only [firstUserContent]
        rw [List.find?_cons_of_neg _ hm']
      constructor
      · intro c hc
        rw [hfu] at hc
        rw [generate_title, if_neg (by simp [hm])]
        exact ih.1 c hc
      · intro hc
        rw [hfu] at hc
        rw [generate_title, if_neg (by simp [hm])]
        exact ih.2 hc
    | true =>
      have hfu : firstUserContent (m :: rest) = m.content := by
        simp [firstUserContent, List.find?_cons_of_pos _ hm]
      constructor
      · intro c hc
        rw [hfu] at hc
        rw [generate_title, if_pos hm]
        simp [hc]
      · intro hc
        exfalso
        rw [hfu] at hc
        simp [isContentfulUser, hc] at hm

set_option maxRecDepth 10000 in
/-- Witness for C3's amended statement: the 66-character first user message
from the spec's own example derives a title of its first 47 characters plus
the ellipsis. -/
theorem generate_title_amended_witness :
    firstUserContent [⟨some "user_message",
        some "Reset my password please, I forgot it and need help urgently today",
        none, none⟩] =
      some "Reset my password please, I forgot it and need help urgently today" ∧
    generate_title [⟨some "user_message",
        some "Reset my password please, I forgot it and need help urgently today",
        none, none⟩] ⟨2025, 1, 1, 0, 0⟩ =
      "Reset my password please, I forgot it and need ..." := by
  refine ⟨rfl, ?_⟩
  have h := (generate_title_amended [⟨some "user_message",
    some "Reset my password please, I forgot it and need help urgently today",
    none, none⟩] ⟨2025, 1, 1, 0, 0⟩).1
    "Reset my password please, I forgot it and need help urgently today" rfl
  rw [h]
  rfl

/-- C1: saving a session and loading it back returns a record whose `messages`
equal the input in order and whose `message_count` is the number of
`user_message` entries — provided the store's records are well-shaped and the
store is strictly below the retention cap, so the fresh save is not evicted. -/
theorem save_then_load (maxHistory : Nat) (s : Store) (session_id : String)
    (messages : List Message) (title : Option String) (nowIso : String)
    (nowTitle : DateTime)
    (hl : ∀ p ∈ s, listable p.2 = true)
    (hlen : s.length < maxHistory)
    (_hum : ∃ m ∈ messages, m.type = some "user_message") :
    ∃ s' r,
      save_chat_session maxHistory s session_id messages title nowIso nowTitle = .ok s' ∧
      load_chat_session s' session_id = some r ∧
      r.messages = some messages ∧
      r.message_count = some (messages.filter (fun m => m.type = some "user_message")).length := by
  set c : FileContent := .record (newRecord session_id messages title nowIso nowTitle) with hc
  have hl' : ∀ p ∈ storeSet s session_id c, listable p.2 = true := by
    intro p hp
    rcases mem_storeSet hp with h | h
    · exact hl p h
    · rw [h, hc]
      rfl
  have hnoop : cleanup_old_sessions maxHistory (storeSet s session_id c) =
      .ok (storeSet s session_id c) :=
    cleanup_noop maxHistory _ hl' (le_trans (length_storeSet_le s session_id c) hlen)
  refine ⟨storeSet s session_id c, newRecord session_id messages title nowIso nowTitle,
    hnoop, ?_, rfl, rfl⟩
  simp [load_chat_session, lookupStore_storeSet_self, hc]

/-- Witness for C1 at a concrete input: empty store, one user message. -/
theorem save_then_load_witness :
    (∀ p ∈ ([] : Store), listable p.2 = true) ∧
    (([] : Store).length < 50) ∧
    (∃ m ∈ [⟨some "user_message", some "hello", none, none⟩],
      Message.type m = some "user_message") ∧
    (∃ s' r,
      save_chat_session 50 [] "s1" [⟨some "user_message", some "hello", none, none⟩]
          none "2025-01-01T00:00:00" ⟨2025, 1, 1, 0, 0⟩ = .ok s' ∧
      load_chat_session s' "s1" = some r ∧
      r.messages = some [⟨some "user_message", some "hello", none, none⟩] ∧
      r.message_count = some (([⟨some "user_message", some "hello", none, none⟩].filter
        (fun m => Message.type m = some "user_message")).length)) :=
  ⟨by simp, by decide, by decide,
    save_then_load 50 [] "s1" [⟨some "user_message", some "hello", none, none⟩]
      none "2025-01-01T00:00:00" ⟨2025, 1, 1, 0, 0⟩ (by simp) (by decide) (by decide)⟩

/-- C8: saving twice under the same id with identical messages leaves exactly
one stored record for that id, carrying the second call's timestamp. -/
theorem save_twice_overwrites (maxHistory : Nat) (s : Store) (session_id : String)
    (messages : List Message) (title : Option String)
    (nowIso1 nowIso2 : String) (nowT1 nowT2 : DateTime)
    (hl : ∀ p ∈ s, listable p.2 = true)
    (hkeys : (s.map Prod.fst).Nodup)
    (hlen : s.length < maxHistory) :
    ∃ s1 s2,
      save_chat_session maxHistory s session_id messages title nowIso1 nowT1 = .ok s1 ∧
      save_chat_session maxHistory s1 session_id messages title nowIso2 nowT2 = .ok s2 ∧
      (s2.map Prod.fst).count session_id = 1 ∧
      load_chat_session s2 session_id =
        some (newRecord session_id messages title nowIso2 nowT2) ∧
      (newRecord session_id messages title nowIso2 nowT2).timestamp = some nowIso2 := by
  set c1 : FileContent := .record (newRecord session_id messages title nowIso1 nowT1) with hc1
  set c2 : FileContent := .record (newRecord session_id messages title nowIso2 nowT2) with hc2
  set s1 : Store := storeSet s session_id c1 with hs1
  set s2 : Store := storeSet s1 session_id c2 with hs2
  have hl1 : ∀ p ∈ s1, listable p.2 = true := by
    intro p hp
    rcases mem_storeSet hp with h | h
    · exact hl p h
    · rw [h, hc1]; rfl
  have hl2 : ∀ p ∈ s2, listable p.2 = true := by
    intro p hp
    rcases mem_storeSet hp with h | h
    · exact hl1 p h
    · rw [h, hc2]; rfl
  have hmem1 : session_id ∈ s1.map Prod.fst := by
    rw [← lookupStore_isSome_iff, hs1, lookupStore_storeSet_self]
    rfl
  have hlen1 : s1.length ≤ maxHistory :=
    le_trans (length_storeSet_le s session_id c1) hlen
  have hlen2 : s2.length ≤ maxHistory := by
    rw [hs2, length_storeSet_of_mem s1 session_id c2 hmem1]
    exact hlen1
  have hkeys1 : (s1.map Prod.fst).Nodup := nodup_map_fst_storeSet s session_id c1 hkeys
  have hkeys2 : (s2.map Prod.fst).Nodup := nodup_map_fst_storeSet s1 session_id c2 hkeys1
  have hmem2 : session_id ∈ s2.map Prod.fst := by
    rw [← lookupStore_isSome_iff, hs2, lookupStore_storeSet_self]
    rfl
  refine ⟨s1, s2, cleanup_noop maxHistory s1 hl1 hlen1,
    cleanup_noop maxHistory s2 hl2 hlen2,
    List.count_eq_one_of_mem hkeys2 hmem2, ?_, rfl⟩
  simp [load_chat_session, hs2, lookupStore_storeSet_self, hc2]

/-- Witness for C8 at a concrete input: empty store, same session saved twice
with timestamps T1 then T2. -/
theorem save_twice_overwrites_witness :
    (∀ p ∈ ([] : Store), listable p.2 = true) ∧
    ((([] : Store).map Prod.fst).Nodup) ∧
    (([] : Store).length < 50) ∧
    (∃ s1 s2,
      save_chat_session 50 [] "s1" [⟨some "user_message", some "hi", none, none⟩]
        none "T1" ⟨2025, 1, 1, 0, 0⟩ = .ok s1 ∧
      save_chat_session 50 s1 "s1" [⟨some "user_message", some "hi", none, none⟩]
        none "T2" ⟨2025, 1, 2, 0, 0⟩ = .ok s2 ∧
      (s2.map Prod.fst).count "s1" = 1 ∧
      load_chat_session s2 "s1" =
        some (newRecord "s1" [⟨some "user_message", some "hi", none, none⟩] none "T2"
          ⟨2025, 1, 2, 0, 0⟩) ∧
      (newRecord "s1" [⟨some "user_message", some "hi", none, none⟩] none "T2"
        ⟨2025, 1, 2, 0, 0⟩).timestamp = some "T2") :=
  ⟨by simp, by simp, by decide,
    save_twice_overwrites 50 [] "s1" [⟨some "user_message", some "hi", none, none⟩]
      none "T1" "T2" ⟨2025, 1, 1, 0, 0⟩ ⟨2025, 1, 2, 0, 0⟩ (by simp) (by simp) (by decide)⟩

/-- C6: with every stored file either unparseable or carrying the three
indexed fields, the listing succeeds, holds exactly one summary per parseable
record (unparseable files silently excluded), and is sorted in descending
order of the timestamp string. -/
theorem get_chat_history_sorted (s : Store)
    (hl : ∀ p ∈ s, listable p.2 = true) :
    ∃ l, get_chat_history s = .ok l ∧
      l.Perm (savedSummaries s) ∧
      l.Pairwise (fun a b => descTimestamp a b = true) := by
  refine ⟨(savedSummaries s).mergeSort descTimestamp,
    get_chat_history_eq_ok s hl, List.mergeSort_perm _ _, ?_⟩
  exact List.sorted_mergeSort descTimestamp_trans descTimestamp_total (savedSummaries s)

/-- Witness for C6: three sessions with timestamps 1 < 2 < 3 plus one
malformed file list as 3, 2, 1 with the malformed file excluded. -/
theorem get_chat_history_sorted_witness :
    (∀ p ∈ ([("x", FileContent.malformed),
        ("a", FileContent.record ⟨some "a", some "ta", some "1", some [], some 0⟩),
        ("c", FileContent.record ⟨some "c", some "tc", some "3", some [], some 0⟩),
        ("b", FileContent.record ⟨some "b", some "tb", some "2", some [], some 0⟩)] : Store),
      listable p.2 = true) ∧
    (∃ l, get_chat_history [("x", FileContent.malformed),
        ("a", FileContent.record ⟨some "a", some "ta", some "1", some [], some 0⟩),
        ("c", FileContent.record ⟨some "c", some "tc", some "3", some [], some 0⟩),
        ("b", FileContent.record ⟨some "b", some "tb", some "2", some [], some 0⟩)] = .ok l ∧
      l.Perm (savedSummaries [("x", FileContent.malformed),
        ("a", FileContent.record ⟨some "a", some "ta", some "1", some [], some 0⟩),
        ("c", FileContent.record ⟨some "c", some "tc", some "3", some [], some 0⟩),
        ("b", FileContent.record ⟨some "b", some "tb", some "2", some [], some 0⟩)]) ∧
      l.Pairwise (fun a b => descTimestamp a b = true)) ∧
    get_chat_history [("x", FileContent.malformed),
        ("a", FileContent.record ⟨some "a", some "ta", some "1", some [], some 0⟩),
        ("c", FileContent.record ⟨some "c", some "tc", some "3", some [], some 0⟩),
        ("b", FileContent.record ⟨some "b", some "tb", some "2", some [], some 0⟩)] =
      .ok [⟨"c", "tc", "3", 0⟩, ⟨"b", "tb", "2", 0⟩, ⟨"a", "ta", "1", 0⟩] :=
  ⟨by decide, get_chat_history_sorted _ (by decide), by
    simp [get_chat_history, collectSummaries, List.mergeSort, List.splitInTwo,
      List.splitAt, List.splitAt.go, List.merge, descTimestamp, strLE, listLE]⟩

theorem cleanup_of_gt (maxHistory : Nat) (s : Store) (l : List Summary)
    (h : get_chat_history s = .ok l) (hgt : l.length > maxHistory) :
    cleanup_old_sessions maxHistory s =
      .ok ((l.drop maxHistory).foldl
        (fun st sum => (delete_chat_session st sum.session_id true).1) s) := by
  unfold cleanup_old_sessions
  rw [h]
  simp [hgt]

theorem savedSummaries_key {s : Store} (hwf : ∀ p ∈ s, wfEntry p = true)
    {x : Summary} (hx : x ∈ savedSummaries s) :
    x.session_id ∈ s.map Prod.fst := by
  rcases List.mem_filterMap.mp hx with ⟨p, hp, hpe⟩
  rcases entrySummary_of_wfEntry (hwf p hp) with ⟨q, hq, hqid⟩
  rw [hq, Option.some_inj] at hpe
  subst hpe
  rw [hqid]
  exact List.mem_map_of_mem Prod.fst hp

/-- C2: with the store already holding `maxHistory` well-formed sessions with
pairwise-distinct timestamps, saving a fresh distinct session leaves exactly
`maxHistory` files: the single summary with the oldest timestamp (which may be
the fresh one) is absent afterwards, and every other session is untouched and
still present. -/
theorem save_evicts_oldest (maxHistory : Nat) (s s' : Store) (session_id : String)
    (messages : List Message) (title : Option String) (nowIso : String)
    (nowT : DateTime)
    (hs' : s' = storeSet s session_id
      (.record (newRecord session_id messages title nowIso nowT)))
    (hwf : ∀ p ∈ s, wfEntry p = true)
    (hkeys : (s.map Prod.fst).Nodup)
    (hsid : session_id ∉ s.map Prod.fst)
    (hlen : s.length = maxHistory)
    (hts : ((savedSummaries s').map Summary.timestamp).Nodup) :
    ∃ s'' ev,
      save_chat_session maxHistory s session_id messages title nowIso nowT = .ok s'' ∧
      ev ∈ savedSummaries s' ∧
      (∀ x ∈ savedSummaries s', descTimestamp x ev = true) ∧
      (∀ x ∈ savedSummaries s', x.session_id ≠ ev.session_id →
        ev.timestamp ≠ x.timestamp) ∧
      lookupStore s'' ev.session_id = none ∧
      (∀ x ∈ savedSummaries s', x.session_id ≠ ev.session_id →
        lookupStore s'' x.session_id = lookupStore s' x.session_id ∧
        (lookupStore s'' x.session_id).isSome = true) ∧
      s''.length = maxHistory := by
  have hwf' : ∀ p ∈ s', wfEntry p = true := by
    intro p hp
    rcases mem_storeSet (hs' ▸ hp) with h | h
    · exact hwf p h
    · rw [h]
      simp [wfEntry, newRecord]
  have hl' : ∀ p ∈ s', listable p.2 = true :=
    fun p hp => listable_of_wfEntry (hwf' p hp)
  have hkeys' : (s'.map Prod.fst).Nodup := by
    rw [hs']
    exact nodup_map_fst_storeSet s session_id _ hkeys
  have hlen' : s'.length = maxHistory + 1 := by
    rw [hs', storeSet_of_not_mem s session_id _ hsid]
    simp [hlen]
  have hsumlen : (savedSummaries s').length = maxHistory + 1 := by
    rw [savedSummaries,
      length_filterMap_of_isSome entrySummary s'
        (fun p hp => entrySummary_isSome_of_wfEntry (hwf' p hp))]
    exact hlen'
  have hsrtlen : ((savedSummaries s').mergeSort descTimestamp).length = maxHistory + 1 := by
    rw [List.length_mergeSort]
    exact hsumlen
  rcases List.eq_nil_or_concat ((savedSummaries s').mergeSort descTimestamp) with hnil | hcat
  · rw [hnil] at hsrtlen
    simp at hsrtlen
  obtain ⟨L, ev, hLev⟩ := hcat
  rw [List.concat_eq_append] at hLev
  have hLlen : L.length = maxHistory := by
    have := hsrtlen
    rw [hLev] at this
    simp at this
    exact this
  have hdrop : ((savedSummaries s').mergeSort descTimestamp).drop maxHistory = [ev] := by
    rw [hLev, ← hLlen, List.drop_left]
  have hev_mem : ev ∈ savedSummaries s' := by
    have hin : ev ∈ (savedSummaries s').mergeSort descTimestamp := by
      rw [hLev]
      exact List.mem_append_right L (List.mem_singleton_self ev)
    exact List.mem_mergeSort.mp hin
  have hev_key : ev.session_id ∈ s'.map Prod.fst := savedSummaries_key hwf' hev_mem
  have hev_lookup : (lookupStore s' ev.session_id).isSome = true :=
    (lookupStore_isSome_iff s' ev.session_id).mpr hev_key
  have hsorted : ((savedSummaries s').mergeSort descTimestamp).Pairwise
      (fun a b => descTimestamp a b = true) :=
    List.sorted_mergeSort descTimestamp_trans descTimestamp_total (savedSummaries s')
  have holdest : ∀ x ∈ savedSummaries s', descTimestamp x ev = true := by
    intro x hx
    have hx' : x ∈ L ++ [ev] := by
      rw [← hLev, List.mem_mergeSort]
      exact hx
    rcases List.mem_append.mp hx' with hxL | hxe
    · have := (List.pairwise_append.mp (hLev ▸ hsorted)).2.2 x hxL ev
        (List.mem_singleton_self ev)
      exact this
    · rw [List.mem_singleton.mp hxe]
      exact listLE_refl ev.timestamp.data
  have huniq : ∀ x ∈ savedSummaries s', x.session_id ≠ ev.session_id →
      ev.timestamp ≠ x.timestamp := by
    intro x hx hxid heq
    exact hxid (congrArg Summary.session_id
      (List.inj_on_of_nodup_map hts hx hev_mem heq.symm))
  have hgt : ((savedSummaries s').mergeSort descTimestamp).length > maxHistory := by
    rw [hsrtlen]
    omega
  have hdel : delete_chat_session s' ev.session_id true =
      (storeErase s' ev.session_id, true) := by
    unfold delete_chat_session
    rw [if_pos hev_lookup]
    rfl
  have hclean : cleanup_old_sessions maxHistory s' =
      .ok (storeErase s' ev.session_id) := by
    rw [cleanup_of_gt maxHistory s' ((savedSummaries s').mergeSort descTimestamp)
      (get_chat_history_eq_ok s' hl') hgt, hdrop]
    simp [hdel]
  refine ⟨storeErase s' ev.session_id, ev, ?_, hev_mem, holdest, huniq,
    lookupStore_storeErase_self s' ev.session_id hkeys', ?_, ?_⟩
  · show cleanup_old_sessions maxHistory
      (storeSet s session_id (.record (newRecord session_id messages title nowIso nowT))) = _
    rw [← hs']
    exact hclean
  · intro x hx hxid
    constructor
    · exact lookupStore_storeErase_ne s' ev.session_id x.session_id (Ne.symm hxid)
    · rw [lookupStore_storeErase_ne s' ev.session_id x.session_id (Ne.symm hxid)]
      exact (lookupStore_isSome_iff s' x.session_id).mpr (savedSummaries_key hwf' hx)
  · have := length_storeErase_of_mem s' ev.session_id hev_key
    omega

/-- Witness for C2: cap 2, two stored sessions with timestamps 1 and 2, and a
fresh third session saved with timestamp 3 — the oldest is evicted. -/
theorem save_evicts_oldest_witness :
    (∀ p ∈ ([("a", FileContent.record ⟨some "a", some "ta", some "1", some [], some 0⟩),
        ("b", FileContent.record ⟨some "b", some "tb", some "2", some [], some 0⟩)] : Store),
      wfEntry p = true) ∧
    ((([("a", FileContent.record ⟨some "a", some "ta", some "1", some [], some 0⟩),
        ("b", FileContent.record ⟨some "b", some "tb", some "2", some [], some 0⟩)] : Store).map
      Prod.fst).Nodup) ∧
    (∃ s'' ev,
      save_chat_session 2
          [("a", FileContent.record ⟨some "a", some "ta", some "1", some [], some 0⟩),
           ("b", FileContent.record ⟨some "b", some "tb", some "2", some [], some 0⟩)]
          "c" [⟨some "user_message", some "x", none, none⟩] none "3" ⟨2025, 1, 1, 0, 0⟩ =
        .ok s'' ∧
      ev ∈ savedSummaries (storeSet
        [("a", FileContent.record ⟨some "a", some "ta", some "1", some [], some 0⟩),
         ("b", FileContent.record ⟨some "b", some "tb", some "2", some [], some 0⟩)]
        "c" (.record (newRecord "c" [⟨some "user_message", some "x", none, none⟩]
          none "3" ⟨2025, 1, 1, 0, 0⟩))) ∧
      (∀ x ∈ savedSummaries (storeSet
        [("a", FileContent.record ⟨some "a", some "ta", some "1", some [], some 0⟩),
         ("b", FileContent.record ⟨some "b", some "tb", some "2", some [], some 0⟩)]
        "c" (.record (newRecord "c" [⟨some "user_message", some "x", none, none⟩]
          none "3" ⟨2025, 1, 1, 0, 0⟩))), descTimestamp x ev = true) ∧
      (∀ x ∈ savedSummaries (storeSet
        [("a", FileContent.record ⟨some "a", some "ta", some "1", some [], some 0⟩),
         ("b", FileContent.record ⟨some "b", some "tb", some "2", some [], some 0⟩)]
        "c" (.record (newRecord "c" [⟨some "user_message", some "x", none, none⟩]
          none "3" ⟨2025, 1, 1, 0, 0⟩))), x.session_id ≠ ev.session_id →
        ev.timestamp ≠ x.timestamp) ∧
      lookupStore s'' ev.session_id = none ∧
      (∀ x ∈ savedSummaries (storeSet
        [("a", FileContent.record ⟨some "a", some "ta", some "1", some [], some 0⟩),
         ("b", FileContent.record ⟨some "b", some "tb", some "2", some [], some 0⟩)]
        "c" (.record (newRecord "c" [⟨some "user_message", some "x", none, none⟩]
          none "3" ⟨2025, 1, 1, 0, 0⟩))), x.session_id ≠ ev.session_id →
        lookupStore s'' x.session_id = lookupStore (storeSet
          [("a", FileContent.record ⟨some "a", some "ta", some "1", some [], some 0⟩),
           ("b", FileContent.record ⟨some "b", some "tb", some "2", some [], some 0⟩)]
          "c" (.record (newRecord "c" [⟨some "user_message", some "x", none, none⟩]
            none "3" ⟨2025, 1, 1, 0, 0⟩))) x.session_id ∧
        (lookupStore s'' x.session_id).isSome = true) ∧
      s''.length = 2) :=
  ⟨by decide, by decide,
    save_evicts_oldest 2
      [("a", FileContent.record ⟨some "a", some "ta", some "1", some [], some 0⟩),
       ("b", FileContent.record ⟨some "b", some "tb", some "2", some [], some 0⟩)]
      (storeSet
        [("a", FileContent.record ⟨some "a", some "ta", some "1", some [], some 0⟩),
         ("b", FileContent.record ⟨some "b", some "tb", some "2", some [], some 0⟩)]
        "c" (.record (newRecord "c" [⟨some "user_message", some "x", none, none⟩]
          none "3" ⟨2025, 1, 1, 0, 0⟩)))
      "c" [⟨some "user_message", some "x", none, none⟩] none "3" ⟨2025, 1, 1, 0, 0⟩
      rfl (by decide) (by decide) (by decide) (by decide) (by decide)⟩
